import Mathlib

/-!
Verification of the banana-image-gen batch generation pipeline.

The definitions below are a shallow embedding of the TypeScript sources:
`src/utils/templateParser.ts` (template expansion), the batch-processor
half of that file (`chunk`, `runWithConcurrency`, `processBatches`),
`src/services/jobManager.ts` (the job record and its merge operations),
`src/services/openrouter.ts` (`generateImageWithRetry`), and the SSE
status feed (`GenerateStatus.handle`).  JavaScript objects used as
string-keyed records are embedded as association lists, JS arrays as
`List`, JS numbers that hold sizes and counts as `Nat` (and `Int` where
the source stores `-1` sentinels), and the KV store as an association
list from key strings to job records.  Fallible store operations return
`Except String`.
-/

namespace Banana

/-! ## Generic list helpers -/

/-- JS `Array.prototype.flatMap`. -/
def flatMapL (l : List α) (f : α → List β) : List β :=
  (l.map f).flatten

/-- First-match lookup in an association list; embeds JS property access
`obj[name]` for objects used as string-keyed records. -/
def lookupVar : List (String × α) → String → Option α
  | [], _ => none
  | (k, v) :: rest, n => if k = n then some v else lookupVar rest n

/-- Insertion pass of JS `new Set(xs)`: keep an element when it has not
been seen yet. -/
def dedupFirstAux (seen : List String) : List String → List String
  | [] => []
  | x :: xs =>
    if x ∈ seen then dedupFirstAux seen xs
    else x :: dedupFirstAux (x :: seen) xs

/-- Order-preserving de-duplication keeping the first occurrence,
embedding JS `[...new Set(xs)]`. -/
def dedupFirst (l : List String) : List String :=
  dedupFirstAux [] l

/-- JS `xs.slice(-n)`: the final `n` elements (the whole list when it is
shorter than `n`). -/
def lastN (n : Nat) (l : List α) : List α :=
  l.drop (l.length - n)

/-! ## Template expander (`src/utils/templateParser.ts`)

The placeholder pattern is the regex `<([A-Z_][A-Z0-9_]*)>`.  Because the
name character class never contains `>`, the regex engine's greedy scan
is equivalent to the deterministic maximal-munch scanner below: at each
`<`, read one `[A-Z_]` character, then the maximal run of `[A-Z0-9_]`
characters, then require `>`; on failure resume one character after the
`<`, on success resume after the `>`. -/

/-- First character class of a placeholder name: `[A-Z_]`. -/
def isVarStart (c : Char) : Bool :=
  ('A' ≤ c && c ≤ 'Z') || c = '_'

/-- Later character class of a placeholder name: `[A-Z0-9_]`. -/
def isVarChar (c : Char) : Bool :=
  ('A' ≤ c && c ≤ 'Z') || ('0' ≤ c && c ≤ '9') || c = '_'

/-- Try to read `NAME>` (the part of a placeholder after the `<`),
returning the name and the remaining input. -/
def parseVarName : List Char → Option (List Char × List Char)
  | [] => none
  | c :: rest =>
    if isVarStart c then
      match rest.dropWhile isVarChar with
      | '>' :: rest2 => some (c :: rest.takeWhile isVarChar, rest2)
      | _ => none
    else none

/-- Scan for all placeholder occurrences, in document order.  The fuel
argument is an upper bound on the number of steps; every step consumes
at least one input character, so `input.length` suffices. -/
def scanVarsFuel : Nat → List Char → List (List Char)
  | 0, _ => []
  | _ + 1, [] => []
  | fuel + 1, c :: rest =>
    if c = '<' then
      match parseVarName rest with
      | some (name, rest2) => name :: scanVarsFuel fuel rest2
      | none => scanVarsFuel fuel rest
    else scanVarsFuel fuel rest

/-- All placeholder occurrences of a template, in document order. -/
def scanVars (l : List Char) : List (List Char) :=
  scanVarsFuel l.length l

/-- `extractVariables`: the distinct placeholder names of a template in
order of first appearance (`[...new Set(matches.map(m => m[1]))]`). -/
def extractVariables (template : String) : List String :=
  dedupFirst ((scanVars template.data).map (fun cs => String.mk cs))

/-- Result record of `validateVariables`. -/
structure ValidationResult where
  valid : Bool
  missing : List String
  empty : List String
deriving DecidableEq

/-- `validateVariables`: a referenced name is `missing` when absent from
the assignment and `empty` when present with a zero-length list. -/
def validateVariables (template : String) (vars : List (String × List String)) :
    ValidationResult :=
  let required := extractVariables template
  let missing := required.filter (fun n => (lookupVar vars n).isNone)
  let empty := required.filter (fun n =>
    match lookupVar vars n with
    | some l => l.isEmpty
    | none => false)
  ⟨missing.isEmpty && empty.isEmpty, missing, empty⟩

/-- `calculateCombinations`: product of the lengths of all value lists
of the assignment (`Object.values(variables)`), or 1 for the empty
record. -/
def calculateCombinations (vars : List (String × List String)) : Nat :=
  let values := vars.map (fun p => p.2)
  if values.isEmpty then 1
  else values.foldl (fun acc arr => acc * arr.length) 1

/-- `cartesianProduct`: `arrays.reduce((acc, arr) =>
acc.flatMap(combo => arr.map(item => [...combo, item])), [[]])`. -/
def cartesianProduct (arrays : List (List α)) : List (List α) :=
  if arrays.isEmpty then [[]]
  else arrays.foldl
    (fun acc arr => flatMapL acc (fun combo => arr.map (fun item => combo ++ [item])))
    [[]]

/-- Specification-level odometer enumeration: the first list varies
slowest, the last list varies fastest. -/
def odometer : List (List α) → List (List α)
  | [] => [[]]
  | xs :: rest => flatMapL xs (fun x => (odometer rest).map (fun t => x :: t))

/-- One leftmost non-overlapping global replacement pass, embedding
`s.replace(new RegExp(literalPattern, "g"), repl)` for a non-empty
literal pattern.  Fuel: every step consumes at least one character of
`s`. -/
def replaceAllFuel : Nat → List Char → List Char → List Char → List Char
  | 0, s, _, _ => s
  | fuel + 1, s, pat, repl =>
    match s with
    | [] => []
    | c :: rest =>
      if pat ≠ [] ∧ pat.isPrefixOf s then
        repl ++ replaceAllFuel fuel (s.drop pat.length) pat repl
      else
        c :: replaceAllFuel fuel rest pat repl

/-- Global literal find-and-replace on strings. -/
def replaceAll (s pat repl : String) : String :=
  String.mk (replaceAllFuel s.data.length s.data pat.data repl.data)

/-- One expanded prompt: substituted text, the variable assignment that
produced it, and its position in the expansion. -/
structure ExpandedPrompt where
  prompt : String
  variableValues : List (String × String)
  index : Nat
deriving DecidableEq

/-- Result record of `expandTemplate`. -/
structure TemplateExpansionResult where
  prompts : List ExpandedPrompt
  variableNames : List String
  totalCombinations : Nat
deriving DecidableEq

/-- The `usedVariables` record of `expandTemplate`: referenced names that
are present in the assignment with a non-empty list, in reference order.
(A JS array is truthy even when empty, so the source's
`variables[name] && variables[name].length > 0` keeps exactly the
present names with a positive length.) -/
def usedVars (template : String) (vars : List (String × List String)) :
    List (String × List String) :=
  (extractVariables template).filterMap (fun n =>
    match lookupVar vars n with
    | some l => if l.isEmpty then none else some (n, l)
    | none => none)

/-- The `valueArrays` of `expandTemplate`:
`variableNames.map(name => usedVariables[name] || [""])`. -/
def valueArraysOf (template : String) (vars : List (String × List String)) :
    List (List String) :=
  (extractVariables template).map (fun n =>
    (lookupVar (usedVars template vars) n).getD [""])

/-- Text of one combination: for each placeholder name in order,
globally replace `<NAME>` by the chosen value
(`prompt = prompt.replace(new RegExp("<" + varName + ">", "g"), value)`).  -/
def substituteCombo (template : String) (pairs : List (String × String)) : String :=
  pairs.foldl (fun acc p => replaceAll acc ("<" ++ p.1 ++ ">") p.2) template

/-- `expandTemplate`: expand a template over all combinations of the
referenced variables' values. -/
def expandTemplate (template : String) (vars : List (String × List String)) :
    TemplateExpansionResult :=
  let variableNames := extractVariables template
  if variableNames.isEmpty then
    ⟨[⟨template, [], 0⟩], [], 1⟩
  else
    let combinations := cartesianProduct (valueArraysOf template vars)
    let prompts := combinations.enum.map (fun ic =>
      let pairs := variableNames.zip ic.2
      ⟨substituteCombo template pairs, pairs, ic.1⟩)
    ⟨prompts, variableNames, prompts.length⟩

/-! ## Job record and merge operations (`src/services/jobManager.ts`)

The KV layer (`kv.get`/`kv.put` with JSON round-trips and a TTL) is an
external collaborator; its effect on the record fields is embedded as an
association list from key strings to job records.  Each jobManager
function reads the record, mutates it, and persists it; the pure
per-record mutation is factored out so that the persisted record can be
reasoned about directly. -/

/-- Job status enumeration. -/
inductive JobStatus where
  | pending
  | processing
  | complete
  | failed
deriving DecidableEq

/-- `status === "complete" || status === "failed"`. -/
def JobStatus.isTerminal : JobStatus → Bool
  | .complete => true
  | .failed => true
  | _ => false

/-- One entry of `completedImages`. -/
structure CompletedImage where
  id : String
  prompt : String
  variableValues : List (String × String)
  timestamp : Nat
  r2Key : String
deriving DecidableEq

/-- One entry of `errors` (`index` is `-1` for synthetic entries). -/
structure JobError where
  prompt : String
  error : String
  index : Int
deriving DecidableEq

/-- The job record stored in KV. -/
structure JobState where
  jobId : String
  status : JobStatus
  totalPrompts : Nat
  completedImages : List CompletedImage
  failedCount : Nat
  errors : List JobError
  startTime : Nat
  model : String
  aspectRatio : String
  promptTemplate : String
deriving DecidableEq

/-- `createJob`: the freshly created record (status `pending`, empty
collections). -/
def createJob (jobId : String) (totalPrompts : Nat)
    (model aspectRatio promptTemplate : String) (now : Nat) : JobState :=
  { jobId := jobId
    status := .pending
    totalPrompts := totalPrompts
    completedImages := []
    failedCount := 0
    errors := []
    startTime := now
    model := model
    aspectRatio := aspectRatio
    promptTemplate := promptTemplate }

/-- `updateJobProgress` (record mutation): append images and errors, bump
`failedCount`, set status to `processing`, then to `complete` when
`completedImages.length + failedCount >= totalPrompts`. -/
def updateJobProgress (job : JobState) (completedImages : List CompletedImage)
    (errors : List JobError) : JobState :=
  let job1 := { job with
    completedImages := job.completedImages ++ completedImages
    errors := job.errors ++ errors
    failedCount := job.failedCount + errors.length
    status := JobStatus.processing }
  if job1.totalPrompts ≤ job1.completedImages.length + job1.failedCount then
    { job1 with status := JobStatus.complete }
  else job1

/-- `addCompletedImages` (record mutation): append images, set status to
`processing`, then to `complete` when the threshold is reached. -/
def addCompletedImages (job : JobState) (images : List CompletedImage) : JobState :=
  let job1 := { job with
    completedImages := job.completedImages ++ images
    status := JobStatus.processing }
  if job1.totalPrompts ≤ job1.completedImages.length + job1.failedCount then
    { job1 with status := JobStatus.complete }
  else job1

/-- `addJobErrors` (record mutation): append errors and bump
`failedCount`; the status is upgraded to `complete` when the threshold
is reached and left unchanged otherwise. -/
def addJobErrors (job : JobState) (errors : List JobError) : JobState :=
  let job1 := { job with
    errors := job.errors ++ errors
    failedCount := job.failedCount + errors.length }
  if job1.totalPrompts ≤ job1.completedImages.length + job1.failedCount then
    { job1 with status := JobStatus.complete }
  else job1

/-- `markJobFailed` (record mutation): set status to `failed` and append
the synthetic error entry `{prompt: "Job failed", error, index: -1}`. -/
def markJobFailed (job : JobState) (error : String) : JobState :=
  { job with
    status := JobStatus.failed
    errors := job.errors ++ [⟨"Job failed", error, -1⟩] }

/-- The sequence of records persisted by successive `updateJobProgress`
calls starting from `job` (one record per call). -/
def mergeTrace (job : JobState) :
    List (List CompletedImage × List JobError) → List JobState
  | [] => []
  | m :: ms =>
    let job1 := updateJobProgress job m.1 m.2
    job1 :: mergeTrace job1 ms

/-! ## KV store and batch processor (`src/utils/batchProcessor.ts`)

The store is an association list keyed by `"job:" ++ jobId`.  The
outcome of one generation attempt chain (`generateImageWithRetry` plus
`storeImage`) is abstracted as an oracle `ExpandedPrompt → GenOutcome`;
on success, the imageId and R2 key are derived exactly as in
`processPrompt` / `storeImage`. -/

/-- The KV store: association list from KV key to job record. -/
def KV := List (String × JobState)

/-- `kv.put(key, value)`: replace or insert the binding for `key`. -/
def kvPut (kv : KV) (key : String) (v : JobState) : KV :=
  (key, v) :: (kv : List (String × JobState)).filter (fun p => p.1 ≠ key)

/-- `getJob(kv, jobId)`. -/
def getJob (kv : KV) (jobId : String) : Option JobState :=
  lookupVar kv ("job:" ++ jobId)

/-- `updateJobProgress(kv, jobId, ...)` with its store effect: throws
(`Except.error`) when the record is absent, otherwise persists the
merged record and returns it. -/
def updateJobProgressKV (kv : KV) (jobId : String)
    (imgs : List CompletedImage) (errs : List JobError) :
    Except String (KV × JobState) :=
  match getJob kv jobId with
  | none => Except.error ("Job " ++ jobId ++ " not found")
  | some job =>
    let job1 := updateJobProgress job imgs errs
    Except.ok (kvPut kv ("job:" ++ jobId) job1, job1)

/-- `createJob(kv, ...)` with its store effect. -/
def createJobKV (kv : KV) (jobId : String) (totalPrompts : Nat)
    (model aspectRatio promptTemplate : String) (now : Nat) : KV :=
  kvPut kv ("job:" ++ jobId) (createJob jobId totalPrompts model aspectRatio promptTemplate now)

/-- The loop body of `chunk(array, size)`:
`for (let i = 0; i < array.length; i += size) chunks.push(array.slice(i, i + size))`.
Each fuel unit pays for one loop iteration (or the final bounds check);
`none` means the fuel ran out, i.e. the JS loop has not terminated
within that many iterations. -/
def chunkLoop (array : List α) (size : Nat) : Nat → Nat → Option (List (List α))
  | 0, _ => none
  | fuel + 1, i =>
    if i < array.length then
      match chunkLoop array size fuel (i + size) with
      | some rest => some (((array.drop i).take size) :: rest)
      | none => none
    else some []

/-- `chunk(array, size)` run with enough fuel for any positive `size`. -/
def chunkJS (array : List α) (size : Nat) : Option (List (List α)) :=
  chunkLoop array size (array.length + 1) 0

/-- Total wrapper for `chunk` used by the batch-processor model. -/
def chunkD (array : List α) (size : Nat) : List (List α) :=
  (chunkJS array size).getD []

/-- `MAX_CONCURRENCY`: "Max concurrent API requests to avoid rate
limiting". -/
def MAX_CONCURRENCY : Nat := 2

/-- The number of workers started by `runWithConcurrency`:
`Array.from({length: Math.min(concurrency, items.length)}, () => worker())`. -/
def workersStarted (concurrency itemCount : Nat) : Nat :=
  min concurrency itemCount

/-- The number of generation calls outstanding after
`Promise.allSettled(batch.map(prompt => processPrompt(...)))` starts
and before any of them can settle: `batch.map` synchronously runs every
`processPrompt` up to its first `await`, which is the
`generateImageWithRetry` call, so all `batch.length` calls are in
flight at once. -/
def spawnedInFlight (batch : List α) : Nat :=
  batch.length

/-- `String.prototype.padStart(4, "0")`. -/
def padStart4 (s : String) : String :=
  String.mk (List.replicate (4 - s.data.length) '0') ++ s

/-- R2 key produced by `storeImage`: `generated/{jobId}/{imageId}.png`. -/
def storageKey (jobId imageId : String) : String :=
  "generated/" ++ jobId ++ "/" ++ imageId ++ ".png"

/-- Outcome of one prompt's generation attempt chain, as seen by
`processPrompt`: a success carrying the wall-clock timestamp used for
the image id, or a terminal failure message. -/
inductive GenOutcome where
  | success (timestamp : Nat)
  | failure (error : String)
deriving DecidableEq

/-- The per-chunk collection loop of `processBatches`: successes (with
derived image id and R2 key) into `completedImages`, failures into
`errors`, in batch order. -/
def processChunk (jobId : String) (gen : ExpandedPrompt → GenOutcome)
    (batch : List ExpandedPrompt) : List CompletedImage × List JobError :=
  batch.foldl (fun acc p =>
    match gen p with
    | .success ts =>
      let imageId := jobId ++ "-" ++ padStart4 (toString p.index) ++ "-" ++ toString ts
      (acc.1 ++ [⟨imageId, p.prompt, p.variableValues, ts, storageKey jobId imageId⟩], acc.2)
    | .failure e => (acc.1, acc.2 ++ [⟨p.prompt, e, (p.index : Int)⟩])) ([], [])

/-- `processBatches`: chunk the prompts, process each chunk, and merge
each chunk's results into the job record.  An exception thrown by
`updateJobProgress` propagates: there is no catch in the source, so the
whole run aborts with the error and no further store write happens. -/
def processBatches (kv : KV) (jobId : String) (prompts : List ExpandedPrompt)
    (batchSize : Nat) (gen : ExpandedPrompt → GenOutcome) : Except String KV :=
  (chunkD prompts batchSize).foldlM (fun store batch =>
    let res := processChunk jobId gen batch
    if 0 < res.1.length ∨ 0 < res.2.length then
      Except.map Prod.fst (updateJobProgressKV store jobId res.1 res.2)
    else Except.ok store) kv

/-- `effectiveBatchSize = Math.min(batchSize, maxBatchSize)` from
`Generate.handle`; the request schema constrains `batchSize` only to be
a number, so non-positive values reach this computation. -/
def effectiveBatchSize (requested maxBatchSize : Int) : Int :=
  min requested maxBatchSize

/-! ## Generation retry (`src/services/openrouter.ts`) -/

/-- `GenerateImageResponse`: success with image payload, or a failure
classified retryable / non-retryable. -/
inductive GenResp where
  | ok (imageBuffer : List Nat) (mimeType : String)
  | err (error : String) (retryable : Bool)
deriving DecidableEq

/-- `result.success`. -/
def GenResp.isOk : GenResp → Bool
  | .ok .. => true
  | .err .. => false

/-- `result.retryable` (only present on failures). -/
def GenResp.isRetryable : GenResp → Bool
  | .ok .. => false
  | .err _ r => r

/-- Observable outcome of one `generateImageWithRetry` run: the returned
response, the number of `generateImage` attempts made, and the backoff
delays slept, in order. -/
structure RetryRun where
  result : GenResp
  attempts : Nat
  delays : List Nat
deriving DecidableEq

/-- The `for (let attempt = 0; attempt < maxRetries; attempt++)` loop of
`generateImageWithRetry`.  `oracle attempt` is the response of the
`attempt`-th `generateImage` call; the fuel is `maxRetries - attempt`,
so the loop exits when it reaches 0, returning the last stored result
(or the "Max retries exceeded" fallback when no attempt ran). -/
def retryLoop (oracle : Nat → GenResp) (maxRetries baseDelayMs : Nat) :
    Nat → Nat → Option GenResp → List Nat → RetryRun
  | 0, attempt, lastResult, delays =>
    ⟨lastResult.getD (.err "Max retries exceeded" false), attempt, delays⟩
  | fuel + 1, attempt, _, delays =>
    let result := oracle attempt
    if result.isOk then ⟨result, attempt + 1, delays⟩
    else if result.isRetryable = false then ⟨result, attempt + 1, delays⟩
    else if attempt < maxRetries - 1 then
      retryLoop oracle maxRetries baseDelayMs fuel (attempt + 1) (some result)
        (delays ++ [baseDelayMs * 2 ^ attempt])
    else
      retryLoop oracle maxRetries baseDelayMs fuel (attempt + 1) (some result) delays

/-- `generateImageWithRetry(options, maxRetries, baseDelayMs)`; the
source's defaults are `maxRetries = 3`, `baseDelayMs = 1000`. -/
def generateImageWithRetry (oracle : Nat → GenResp) (maxRetries baseDelayMs : Nat) :
    RetryRun :=
  retryLoop oracle maxRetries baseDelayMs maxRetries 0 none []

/-! ## SSE status feed (`GenerateStatus.handle`)

One poll tick reads the job record, emits the completed images past the
`lastSentCount` high-water mark, re-emits the last 10 stored errors
whenever any exist, and ends the feed after emitting a terminal event
when the status is `complete` or `failed`.  The loop is embedded over a
list of successive job-record snapshots, one per poll tick (the poll
count cap only bounds how many snapshots are consumed). -/

/-- Events of one poll tick, plus whether the tick ended the feed. -/
structure FeedTick where
  progressImages : List CompletedImage
  errorsSent : List JobError
  terminal : Bool
deriving DecidableEq

/-- One iteration of the polling loop body, together with the updated
`lastSentCount`. -/
def tickOf (job : JobState) (lastSentCount : Nat) : FeedTick × Nat :=
  let emitted :=
    if lastSentCount < job.completedImages.length then
      job.completedImages.drop lastSentCount
    else []
  let count1 :=
    if lastSentCount < job.completedImages.length then
      job.completedImages.length
    else lastSentCount
  let errs := if job.errors.isEmpty then [] else lastN 10 job.errors
  (⟨emitted, errs, job.status.isTerminal⟩, count1)

/-- The polling loop over successive snapshots: emit each tick, stopping
after a tick that saw a terminal status. -/
def feedLoop : List JobState → Nat → List FeedTick
  | [], _ => []
  | job :: rest, c =>
    let t := tickOf job c
    t.1 :: (if t.1.terminal then [] else feedLoop rest t.2)

/-! ## Concrete sample data used by witnesses and counterexamples -/

/-- A sample completed image record. -/
def sampleImg : CompletedImage :=
  ⟨"j-0000-5", "a cat", [], 5, "generated/j/j-0000-5.png"⟩

/-- A sample per-prompt error record. -/
def sampleErr : JobError := ⟨"a cat", "boom", 0⟩

/-- A reachable job record with one stored error and non-terminal
status: one merge carrying a single failure into a 2-prompt job. -/
def sampleJobWithError : JobState :=
  updateJobProgress (createJob "j" 2 "m" "1:1" "t" 0) [] [sampleErr]

/-- A job record in the `failed` state, produced by `markJobFailed`. -/
def sampleFailedJob : JobState :=
  markJobFailed (createJob "j" 2 "m" "1:1" "t" 0) "boom"

/-- Sample expanded prompts. -/
def samplePrompt0 : ExpandedPrompt := ⟨"a cat", [], 0⟩

/-- Second sample expanded prompt. -/
def samplePrompt1 : ExpandedPrompt := ⟨"a dog", [], 1⟩

/-- Third sample expanded prompt. -/
def samplePrompt2 : ExpandedPrompt := ⟨"a fox", [], 2⟩

/-- A three-prompt workload. -/
def samplePrompts3 : List ExpandedPrompt :=
  [samplePrompt0, samplePrompt1, samplePrompt2]

/-- A generation oracle on which every prompt fails terminally. -/
def genFailOracle : ExpandedPrompt → GenOutcome :=
  fun _ => .failure "boom"

/-- A `generateImage` oracle: attempts 0 and 1 fail retryably, attempt 2
succeeds. -/
def retryOracleRRS : Nat → GenResp :=
  fun n => if n ≤ 1 then .err "429 rate limited" true else .ok [1] "image/png"

/-- A `generateImage` oracle whose first attempt fails non-retryably. -/
def retryOracleNR : Nat → GenResp :=
  fun _ => .err "No image returned from API" false

/-! ## Helper lemmas: flatMap algebra and the cartesian product -/

theorem flatMapL_nil (f : α → List β) : flatMapL [] f = [] := rfl

theorem flatMapL_cons (x : α) (l : List α) (f : α → List β) :
    flatMapL (x :: l) f = f x ++ flatMapL l f := by
  simp [flatMapL]

theorem flatMapL_singleton_map (l : List α) (f : α → β) :
    flatMapL l (fun a => [f a]) = l.map f := by
  induction l with
  | nil => rfl
  | cons x xs ih => simp [flatMapL_cons, ih]

theorem map_flatMapL (l : List α) (f : α → List β) (g : β → γ) :
    (flatMapL l f).map g = flatMapL l (fun a => (f a).map g) := by
  induction l with
  | nil => rfl
  | cons x xs ih => simp [flatMapL_cons, ih]

theorem flatMapL_map (l : List α) (f : α → β) (g : β → List γ) :
    flatMapL (l.map f) g = flatMapL l (fun a => g (f a)) := by
  induction l with
  | nil => rfl
  | cons x xs ih => simp [flatMapL_cons, ih]

theorem flatMapL_assoc (l : List α) (f : α → List β) (g : β → List γ) :
    flatMapL (flatMapL l f) g = flatMapL l (fun a => flatMapL (f a) g) := by
  induction l with
  | nil => rfl
  | cons x xs ih =>
    simp only [flatMapL_cons]
    rw [← ih]
    simp [flatMapL, List.map_append]

theorem length_flatMapL (l : List α) (f : α → List β) :
    (flatMapL l f).length = (l.map (fun a => (f a).length)).sum := by
  induction l with
  | nil => rfl
  | cons x xs ih => simp [flatMapL_cons, ih]

theorem foldl_cartStep (arrays : List (List α)) :
    ∀ acc : List (List α),
      arrays.foldl
        (fun acc arr => flatMapL acc (fun combo => arr.map (fun item => combo ++ [item])))
        acc
      = flatMapL acc (fun c => (odometer arrays).map (fun t => c ++ t)) := by
  induction arrays with
  | nil =>
    intro acc
    simp only [List.foldl_nil, odometer, List.map_singleton, List.append_nil]
    rw [flatMapL_singleton_map, List.map_id']
  | cons arr rest ih =>
    intro acc
    rw [List.foldl_cons, ih, flatMapL_assoc]
    simp only [odometer]
    congr 1
    funext c
    rw [flatMapL_map, map_flatMapL]
    congr 1
    funext x
    simp [List.map_map, Function.comp_def]

theorem cartesianProduct_eq_odometer (arrays : List (List α)) :
    cartesianProduct arrays = odometer arrays := by
  cases arrays with
  | nil => rfl
  | cons arr rest =>
    simp only [cartesianProduct, List.isEmpty_cons, if_neg Bool.false_ne_true]
    rw [foldl_cartStep]
    simp [flatMapL]

theorem enum_map_snd_comp (l : List α) (g : α → β) :
    l.enum.map (fun ic => g ic.2) = l.map g := by
  rw [show (fun (ic : Nat × α) => g ic.2) = g ∘ Prod.snd from rfl,
    ← List.map_map, List.enum_map_snd]

theorem length_odometer (arrays : List (List α)) :
    (odometer arrays).length = (arrays.map List.length).prod := by
  induction arrays with
  | nil => rfl
  | cons arr rest ih =>
    simp only [odometer, length_flatMapL, List.map_map]
    simp [Function.comp_def, ih, List.map_const', Nat.mul_comm]

/-- C5 — For every template and valid assignment, `expandTemplate`
enumerates combinations in odometer order over the placeholders taken in
order of first appearance (the last-appearing placeholder varies
fastest): `cartesianProduct` coincides with the specification-level
odometer enumeration, the assignments of the returned prompts are
exactly that enumeration zipped with the placeholder names in
first-appearance order, and the §8 end-to-end example produces exactly
the four claimed prompt texts in the claimed order.  Determinism holds
because the embedding, like the source computation, is a pure function
of (template, assignment). -/
theorem C5_odometer_order :
    (∀ (α : Type) (arrays : List (List α)), cartesianProduct arrays = odometer arrays)
    ∧ (∀ (t : String) (vars : List (String × List String)),
        (expandTemplate t vars).prompts.map (fun p => p.variableValues)
          = (odometer (valueArraysOf t vars)).map
              (fun combo => (extractVariables t).zip combo))
    ∧ (expandTemplate "A <STYLE> painting of <SUBJECT>"
        [("STYLE", ["watercolor", "oil"]), ("SUBJECT", ["cat", "dog"])]).prompts.map
          (fun p => p.prompt)
      = ["A watercolor painting of cat", "A watercolor painting of dog",
         "A oil painting of cat", "A oil painting of dog"] := by
  refine ⟨fun α arrays => cartesianProduct_eq_odometer arrays, fun t vars => ?_, by decide⟩
  by_cases h : (extractVariables t).isEmpty
  · have hnil : extractVariables t = [] := List.isEmpty_iff.mp h
    simp [expandTemplate, h, valueArraysOf, hnil, odometer, flatMapL]
  · simp only [expandTemplate, h, if_neg Bool.false_ne_true]
    rw [cartesianProduct_eq_odometer, List.map_map]
    exact enum_map_snd_comp _ _

/-! ## Job record invariants -/

theorem updateJobProgress_status_iff (job : JobState) (imgs : List CompletedImage)
    (errs : List JobError) :
    ((updateJobProgress job imgs errs).status = JobStatus.complete ↔
      (updateJobProgress job imgs errs).totalPrompts ≤
        (updateJobProgress job imgs errs).completedImages.length
          + (updateJobProgress job imgs errs).failedCount) := by
  simp only [updateJobProgress]
  split <;> simp_all [List.length_append]

theorem mem_mergeTrace_invariant :
    ∀ (ms : List (List CompletedImage × List JobError)) (start j : JobState),
      j ∈ mergeTrace start ms →
      (j.status = JobStatus.complete ↔
        j.totalPrompts ≤ j.completedImages.length + j.failedCount) := by
  intro ms
  induction ms with
  | nil => intro start j hj; simp [mergeTrace] at hj
  | cons m ms ih =>
    intro start j hj
    simp only [mergeTrace, List.mem_cons] at hj
    rcases hj with h | h
    · subst h; exact updateJobProgress_status_iff start m.1 m.2
    · exact ih _ j h

/-- C1 — For every job record and every sequence of
`updateJobProgress` merges applied after creation, every record
persisted by a merge call satisfies: status is `complete` iff
`completedImages.length + failedCount >= totalPrompts`, evaluated after
that merge. -/
theorem C1_merge_status_invariant (jobId : String) (total : Nat)
    (model aspectRatio template : String) (now : Nat)
    (ms : List (List CompletedImage × List JobError)) (j : JobState)
    (hj : j ∈ mergeTrace (createJob jobId total model aspectRatio template now) ms) :
    (j.status = JobStatus.complete ↔
      j.totalPrompts ≤ j.completedImages.length + j.failedCount) :=
  mem_mergeTrace_invariant ms _ j hj

/-- Witness for C1: a 1-prompt job receiving one merge with one image;
the persisted record is `complete` and the invariant holds there. -/
theorem C1_merge_status_invariant_witness :
    ((updateJobProgress (createJob "j" 1 "m" "1:1" "t" 0) [sampleImg] []).status
        = JobStatus.complete ↔
      (updateJobProgress (createJob "j" 1 "m" "1:1" "t" 0) [sampleImg] []).totalPrompts ≤
        (updateJobProgress (createJob "j" 1 "m" "1:1" "t" 0) [sampleImg] []).completedImages.length
          + (updateJobProgress (createJob "j" 1 "m" "1:1" "t" 0) [sampleImg] []).failedCount) :=
  C1_merge_status_invariant "j" 1 "m" "1:1" "t" 0 [([sampleImg], [])] _ (by decide)

/-- C4 counterexample — the claim "every subsequent merge operation
leaves a `failed` status equal to `failed`" is false at a concrete
input: `updateJobProgress` on a failed 2-prompt job with one image
resets the status to `processing`. -/
theorem C4_failed_not_dead_end_counterexample :
    (updateJobProgress sampleFailedJob [sampleImg] []).status ≠ JobStatus.failed := by
  decide

/-- C4 (amended) — the `failed` state is not a dead-end under all
merge operations.  For a job whose stored status is `failed`:
`updateJobProgress` and `addCompletedImages` overwrite the status with
`processing`, or `complete` once
`completedImages.length + failedCount >= totalPrompts` holds after the
merge; only `addJobErrors` preserves `failed`, and only while the
completion threshold is not reached. -/
theorem C4_failed_overwritten_by_merges (j : JobState)
    (imgs : List CompletedImage) (errs : List JobError)
    (h : j.status = JobStatus.failed) :
    ((updateJobProgress j imgs errs).status =
      if j.totalPrompts ≤ (j.completedImages.length + imgs.length)
          + (j.failedCount + errs.length)
        then JobStatus.complete else JobStatus.processing)
    ∧ ((addCompletedImages j imgs).status =
      if j.totalPrompts ≤ (j.completedImages.length + imgs.length) + j.failedCount
        then JobStatus.complete else JobStatus.processing)
    ∧ ((addJobErrors j errs).status =
      if j.totalPrompts ≤ j.completedImages.length + (j.failedCount + errs.length)
        then JobStatus.complete else JobStatus.failed) := by
  refine ⟨?_, ?_, ?_⟩
  · simp only [updateJobProgress, List.length_append]
    split <;> rfl
  · simp only [addCompletedImages, List.length_append]
    split <;> rfl
  · simp only [addJobErrors, List.length_append]
    split <;> first | rfl | exact h

/-! ## Counting the expansion (C2, C9) -/

theorem mem_dedupFirstAux (a : String) :
    ∀ (l seen : List String), a ∈ dedupFirstAux seen l ↔ a ∈ l ∧ a ∉ seen := by
  intro l
  induction l with
  | nil => intro seen; simp [dedupFirstAux]
  | cons x xs ih =>
    intro seen
    by_cases hx : x ∈ seen
    · simp only [dedupFirstAux, if_pos hx, ih, List.mem_cons]
      constructor
      · rintro ⟨hmem, hns⟩; exact ⟨Or.inr hmem, hns⟩
      · rintro ⟨hor, hns⟩
        rcases hor with rfl | hmem
        · exact absurd hx hns
        · exact ⟨hmem, hns⟩
    · simp only [dedupFirstAux, if_neg hx, List.mem_cons, ih]
      constructor
      · rintro (rfl | ⟨hmem, hns⟩)
        · exact ⟨Or.inl rfl, hx⟩
        · refine ⟨Or.inr hmem, fun hc => hns (Or.inr hc)⟩
      · rintro ⟨rfl | hmem, hns⟩
        · exact Or.inl rfl
        · by_cases hax : a = x
          · exact Or.inl hax
          · exact Or.inr ⟨hmem, by simp [hax, hns]⟩

theorem nodup_dedupFirstAux :
    ∀ (l seen : List String), (dedupFirstAux seen l).Nodup := by
  intro l
  induction l with
  | nil => intro seen; simp [dedupFirstAux]
  | cons x xs ih =>
    intro seen
    by_cases hx : x ∈ seen
    · simpa [dedupFirstAux, if_pos hx] using ih seen
    · simp only [dedupFirstAux, if_neg hx, List.nodup_cons]
      refine ⟨fun hc => ?_, ih (x :: seen)⟩
      exact ((mem_dedupFirstAux x xs (x :: seen)).mp hc).2 (List.mem_cons_self x seen)

theorem nodup_extractVariables (t : String) : (extractVariables t).Nodup :=
  nodup_dedupFirstAux _ []

theorem lookupVar_mem_keys {vars : List (String × α)} {n : String} {l : α}
    (h : lookupVar vars n = some l) : n ∈ vars.map Prod.fst := by
  induction vars with
  | nil => simp [lookupVar] at h
  | cons p rest ih =>
    rcases p with ⟨k, v⟩
    by_cases hk : k = n
    · subst hk; simp
    · simp only [lookupVar, if_neg hk] at h
      simpa using Or.inr (ih h)

theorem lookupVar_self {vars : List (String × α)}
    (h : (vars.map Prod.fst).Nodup) :
    ∀ p ∈ vars, lookupVar vars p.1 = some p.2 := by
  induction vars with
  | nil => intro p hp; simp at hp
  | cons q rest ih =>
    rcases q with ⟨k, v⟩
    simp only [List.map_cons, List.nodup_cons] at h
    intro p hp
    rcases List.mem_cons.mp hp with rfl | hmem
    · simp [lookupVar]
    · have hne : k ≠ p.1 := fun hc => h.1 (hc ▸ List.mem_map_of_mem Prod.fst hmem)
      simpa [lookupVar, if_neg hne] using ih h.2 p hmem

theorem lookupVar_filterMapAux (vars : List (String × List String)) (n : String)
    (l : List String) (hl : lookupVar vars n = some l) (hne : l ≠ []) :
    ∀ (names : List String), n ∈ names →
      lookupVar (names.filterMap (fun m =>
        match lookupVar vars m with
        | some v => if v.isEmpty then none else some (m, v)
        | none => none)) n = some l := by
  intro names
  induction names with
  | nil => intro h; simp at h
  | cons m ms ih =>
    intro hmem
    by_cases hnm : m = n
    · subst hnm
      simp [List.filterMap_cons, hl, hne, lookupVar]
    · have hmem2 : n ∈ ms := by
        rcases List.mem_cons.mp hmem with rfl | h
        · exact absurd rfl hnm
        · exact h
      simp only [List.filterMap_cons]
      cases hlm : lookupVar vars m with
      | none => exact ih hmem2
      | some v =>
        by_cases hv : v = []
        · simpa [hv] using ih hmem2
        · simpa [hv, lookupVar, hnm] using ih hmem2

theorem lookupVar_usedVars (t : String) (vars : List (String × List String))
    (n : String) (l : List String) (hl : lookupVar vars n = some l)
    (hne : l ≠ []) (hn : n ∈ extractVariables t) :
    lookupVar (usedVars t vars) n = some l :=
  lookupVar_filterMapAux vars n l hl hne (extractVariables t) hn

theorem expand_length (t : String) (vars : List (String × List String))
    (h : ∀ n ∈ extractVariables t,
      ∃ l, lookupVar vars n = some l ∧ l.isEmpty = false) :
    (expandTemplate t vars).prompts.length
      = ((extractVariables t).map (fun n => ((lookupVar vars n).getD []).length)).prod := by
  by_cases hvn : (extractVariables t).isEmpty
  · have hnil : extractVariables t = [] := List.isEmpty_iff.mp hvn
    simp [expandTemplate, hvn, hnil]
  · simp only [expandTemplate, hvn, if_neg Bool.false_ne_true,
      List.length_map, List.enum_length]
    rw [cartesianProduct_eq_odometer, length_odometer]
    simp only [valueArraysOf, List.map_map]
    refine congrArg List.prod (List.map_congr_left ?_)
    intro n hn
    rcases h n hn with ⟨l, hl, hle⟩
    have hne : l ≠ [] := by simpa using hle
    have hu := lookupVar_usedVars t vars n l hl hne hn
    simp [Function.comp_def, hu, hl]

theorem calcStep_foldl (l : List (List String)) :
    ∀ init : Nat,
      l.foldl (fun acc arr => acc * arr.length) init = init * (l.map List.length).prod := by
  induction l with
  | nil => intro init; simp
  | cons x xs ih => intro init; simp [ih, Nat.mul_assoc]

theorem calculateCombinations_eq_prod (vars : List (String × List String)) :
    calculateCombinations vars = (vars.map (fun p => p.2.length)).prod := by
  cases vars with
  | nil => rfl
  | cons p rest =>
    simp only [calculateCombinations, List.map_cons, List.isEmpty_cons,
      if_neg Bool.false_ne_true]
    rw [List.foldl_cons, calcStep_foldl]
    simp [List.map_map, Function.comp_def, Nat.mul_assoc]

theorem validateVariables_valid (t : String) (vars : List (String × List String))
    (h : (validateVariables t vars).valid = true) :
    ∀ n ∈ extractVariables t,
      ∃ l, lookupVar vars n = some l ∧ l.isEmpty = false := by
  simp only [validateVariables, Bool.and_eq_true, List.isEmpty_iff,
    List.filter_eq_nil_iff] at h
  intro n hn
  have h1 := h.1 n hn
  have h2 := h.2 n hn
  cases hl : lookupVar vars n with
  | none => simp [hl] at h1
  | some l =>
    refine ⟨l, rfl, ?_⟩
    simp only [hl] at h2
    simpa using h2

/-- C2 counterexample — the claim asserts the expansion count is
always the product `n_1 * ... * n_k` of the referenced candidate-list
lengths, but for template `"<A>"` with `A` bound to the empty list the
product is `0` while `expandTemplate` substitutes the fallback `[""]`
and returns one prompt. -/
theorem C2_count_counterexample :
    (expandTemplate "<A>" [("A", ([] : List String))]).prompts.length ≠
      ((extractVariables "<A>").map
        (fun n => ((lookupVar [("A", ([] : List String))] n).getD []).length)).prod := by
  decide

/-- C2 (amended) — for every template whose `k` distinct referenced
placeholders all have **non-empty** candidate lists (as validation
guarantees) of lengths `n_1..n_k`, `expandTemplate` returns exactly
`n_1 * ... * n_k` prompts — exactly one prompt (the template verbatim,
empty assignment, index 0) when `k = 0` — and the index fields are
exactly `0..N-1` in order: dense, zero-based, without duplicates. -/
theorem C2_expansion_count (t : String) (vars : List (String × List String))
    (h : ∀ n ∈ extractVariables t,
      ∃ l, lookupVar vars n = some l ∧ l.isEmpty = false) :
    ((expandTemplate t vars).prompts.length
      = ((extractVariables t).map (fun n => ((lookupVar vars n).getD []).length)).prod)
    ∧ (extractVariables t = [] → (expandTemplate t vars).prompts = [⟨t, [], 0⟩])
    ∧ (expandTemplate t vars).prompts.map (fun p => p.index)
      = List.range (expandTemplate t vars).prompts.length := by
  refine ⟨expand_length t vars h, fun hnil => ?_, ?_⟩
  · simp [expandTemplate, hnil]
  · by_cases hvn : (extractVariables t).isEmpty
    · simp [expandTemplate, hvn]
      decide
    · simp only [expandTemplate, hvn, if_neg Bool.false_ne_true, List.map_map,
        List.length_map, List.enum_length]
      exact List.enum_map_fst _

/-- Witness for C2: template `"<A>"` with `A = ["x", "y"]` has 2 = 2
prompts, and indices `[0, 1] = range 2`. -/
theorem C2_expansion_count_witness :
    ((expandTemplate "<A>" [("A", ["x", "y"])]).prompts.length
      = ((extractVariables "<A>").map
          (fun n => ((lookupVar [("A", ["x", "y"])] n).getD []).length)).prod)
    ∧ (extractVariables "<A>" = [] →
        (expandTemplate "<A>" [("A", ["x", "y"])]).prompts = [⟨"<A>", [], 0⟩])
    ∧ (expandTemplate "<A>" [("A", ["x", "y"])]).prompts.map (fun p => p.index)
      = List.range (expandTemplate "<A>" [("A", ["x", "y"])]).prompts.length :=
  C2_expansion_count "<A>" [("A", ["x", "y"])] (by decide)

/-- C9 counterexample — the claim equates
`calculateCombinations(variables)` with the expansion count for every
validating assignment, but `calculateCombinations` multiplies over
*all* assignment entries while `expandTemplate` only uses the
referenced ones: template `"<A>"` with `{A: ["x"], B: ["y","z"]}`
validates, yet the product is 2 and the expansion has 1 prompt. -/
theorem C9_combinations_counterexample :
    (validateVariables "<A>" [("A", ["x"]), ("B", ["y", "z"])]).valid = true
    ∧ calculateCombinations [("A", ["x"]), ("B", ["y", "z"])] = 2
    ∧ (expandTemplate "<A>" [("A", ["x"]), ("B", ["y", "z"])]).prompts.length = 1 := by
  decide

/-- C9 (amended) — for every template and every assignment that
validates against it, has no duplicate keys (JS records cannot), and
whose every entry is referenced by the template (the premise the spec
states as "ignoring assignment entries not referenced by the template"
only holds vacuously then), `calculateCombinations` — the product of
the candidate-list lengths, computed without materializing the
expansion — equals the number of prompts returned by `expandTemplate`. -/
theorem C9_combinations_refinement (t : String) (vars : List (String × List String))
    (hvalid : (validateVariables t vars).valid = true)
    (hkeys : (vars.map Prod.fst).Nodup)
    (hsub : ∀ k ∈ vars.map Prod.fst, k ∈ extractVariables t) :
    calculateCombinations vars = (expandTemplate t vars).prompts.length := by
  have hprop := validateVariables_valid t vars hvalid
  have hperm : (vars.map Prod.fst).Perm (extractVariables t) := by
    refine (List.perm_ext_iff_of_nodup hkeys (nodup_extractVariables t)).mpr ?_
    intro a
    constructor
    · exact hsub a
    · intro ha
      rcases hprop a ha with ⟨l, hl, _⟩
      exact lookupVar_mem_keys hl
  rw [expand_length t vars hprop, calculateCombinations_eq_prod]
  have hmap : vars.map (fun p => p.2.length)
      = (vars.map Prod.fst).map (fun n => ((lookupVar vars n).getD []).length) := by
    rw [List.map_map]
    refine List.map_congr_left ?_
    intro p hp
    simp [Function.comp_def, lookupVar_self hkeys p hp]
  rw [hmap]
  exact (hperm.map _).prod_eq

/-- Witness for C9: template `"<A>"` with exactly the referenced entry
`A = ["x", "y"]`; both sides are 2. -/
theorem C9_combinations_refinement_witness :
    calculateCombinations [("A", ["x", "y"])]
      = (expandTemplate "<A>" [("A", ["x", "y"])]).prompts.length :=
  C9_combinations_refinement "<A>" [("A", ["x", "y"])] (by decide) (by decide) (by decide)

/-- Witness for C4 (amended): the failed 2-prompt sample job, merged
with one image via `updateJobProgress`, lands in `processing`
(threshold 2 not reached: 1 image + 1 prior failure counted... evaluated
concretely), and `addJobErrors` with no errors leaves it `failed`. -/
theorem C4_failed_overwritten_by_merges_witness :
    ((updateJobProgress sampleFailedJob [sampleImg] []).status =
      if sampleFailedJob.totalPrompts ≤
          (sampleFailedJob.completedImages.length + [sampleImg].length)
            + (sampleFailedJob.failedCount + ([] : List JobError).length)
        then JobStatus.complete else JobStatus.processing)
    ∧ ((addCompletedImages sampleFailedJob [sampleImg]).status =
      if sampleFailedJob.totalPrompts ≤
          (sampleFailedJob.completedImages.length + [sampleImg].length)
            + sampleFailedJob.failedCount
        then JobStatus.complete else JobStatus.processing)
    ∧ ((addJobErrors sampleFailedJob []).status =
      if sampleFailedJob.totalPrompts ≤
          sampleFailedJob.completedImages.length
            + (sampleFailedJob.failedCount + ([] : List JobError).length)
        then JobStatus.complete else JobStatus.failed) :=
  C4_failed_overwritten_by_merges sampleFailedJob [sampleImg] [] (by decide)

/-! ## Concurrency cap (C3) -/

/-- C3 — the claim says the number of simultaneously in-flight
generation attempts never exceeds the concurrency cap
`MAX_CONCURRENCY = 2`, but `processBatches` runs each chunk through
`Promise.allSettled(batch.map(...))`, which starts every prompt of the
chunk at once: a 3-prompt chunk (`batchSize = 3`, within the configured
maximum) puts 3 generation calls in flight.  `runWithConcurrency`, the
helper that does respect the cap (it starts
`min(concurrency, items.length)` workers), is never called by
`processBatches`. -/
theorem C3_concurrency_cap_violated :
    chunkD samplePrompts3 3 = [samplePrompts3]
    ∧ spawnedInFlight samplePrompts3 = 3
    ∧ MAX_CONCURRENCY = 2
    ∧ MAX_CONCURRENCY < spawnedInFlight samplePrompts3
    ∧ workersStarted MAX_CONCURRENCY 3 = MAX_CONCURRENCY := by
  refine ⟨by decide, rfl, rfl, by decide, rfl⟩

/-! ## Orchestration failure (C7) -/

/-- C7 — the claim says a `processBatches` run that throws before
any chunk's progress is merged leaves the job marked `failed` with a
synthetic error entry.  The code does not: `processBatches` has no
catch and nothing in the repository calls `markJobFailed`, so when the
job record is absent the first `updateJobProgress` throws
`Job {jobId} not found`, the exception propagates out of the detached
background run, and no store write happens at all — in particular no
record is marked `failed`.  (`markJobFailed` itself would produce
exactly the synthetic entry the claim describes, but it is dead
code.) -/
theorem C7_orchestration_error_unhandled :
    processBatches ([] : KV) "j1" [samplePrompt0] 10 genFailOracle
      = Except.error "Job j1 not found"
    ∧ (markJobFailed (createJob "j1" 1 "m" "1:1" "t" 0) "boom").status = JobStatus.failed
    ∧ (markJobFailed (createJob "j1" 1 "m" "1:1" "t" 0) "boom").errors
      = [⟨"Job failed", "boom", -1⟩] :=
  ⟨rfl, rfl, rfl⟩

/-! ## Retry policy (C6) -/

/-- C6 — for every `generateImage` oracle and base delay, a
`generateImageWithRetry` run with the source's `maxRetries = 3` makes
between 1 and 3 attempts; the returned value is the final attempt's
outcome; the delay slept before retry number `a` (zero-based) is
`baseDelayMs * 2 ^ a`; a prompt whose first two attempts fail retryably
and whose third succeeds returns that success after exactly 3 attempts;
and a prompt whose first attempt fails non-retryably returns that
failure after exactly 1 attempt. -/
theorem C6_retry_policy (oracle : Nat → GenResp) (base : Nat) :
    (generateImageWithRetry oracle 3 base).attempts ≤ 3
    ∧ 1 ≤ (generateImageWithRetry oracle 3 base).attempts
    ∧ (generateImageWithRetry oracle 3 base).result
        = oracle ((generateImageWithRetry oracle 3 base).attempts - 1)
    ∧ (generateImageWithRetry oracle 3 base).delays
        = (List.range ((generateImageWithRetry oracle 3 base).attempts - 1)).map
            (fun a => base * 2 ^ a)
    ∧ ((oracle 0).isOk = false → (oracle 0).isRetryable = true →
       (oracle 1).isOk = false → (oracle 1).isRetryable = true →
       (oracle 2).isOk = true →
       (generateImageWithRetry oracle 3 base).result = oracle 2
         ∧ (generateImageWithRetry oracle 3 base).attempts = 3)
    ∧ ((oracle 0).isOk = false → (oracle 0).isRetryable = false →
       (generateImageWithRetry oracle 3 base).result = oracle 0
         ∧ (generateImageWithRetry oracle 3 base).attempts = 1) := by
  rcases h0 : oracle 0 with ⟨buf0, mt0⟩ | ⟨e0, r0⟩
  · simp [generateImageWithRetry, retryLoop, h0, GenResp.isOk]
  · cases r0 with
    | false =>
      simp [generateImageWithRetry, retryLoop, h0, GenResp.isOk, GenResp.isRetryable]
    | true =>
      rcases h1 : oracle 1 with ⟨buf1, mt1⟩ | ⟨e1, r1⟩
      · simp [generateImageWithRetry, retryLoop, h0, h1, GenResp.isOk,
          GenResp.isRetryable, List.range_succ]
      · cases r1 with
        | false =>
          simp [generateImageWithRetry, retryLoop, h0, h1, GenResp.isOk,
            GenResp.isRetryable, List.range_succ]
        | true =>
          rcases h2 : oracle 2 with ⟨buf2, mt2⟩ | ⟨e2, r2⟩
          · simp [generateImageWithRetry, retryLoop, h0, h1, h2, GenResp.isOk,
              GenResp.isRetryable, List.range_succ]
          · cases r2 with
            | false =>
              simp [generateImageWithRetry, retryLoop, h0, h1, h2, GenResp.isOk,
                GenResp.isRetryable, List.range_succ]
            | true =>
              simp [generateImageWithRetry, retryLoop, h0, h1, h2, GenResp.isOk,
                GenResp.isRetryable, List.range_succ]

/-- Witness for C6: on the retryable-retryable-success oracle the run
returns the third attempt's success after 3 attempts; on the
non-retryable oracle it returns the first attempt's failure after 1
attempt. -/
theorem C6_retry_policy_witness :
    ((generateImageWithRetry retryOracleRRS 3 1000).result = retryOracleRRS 2
      ∧ (generateImageWithRetry retryOracleRRS 3 1000).attempts = 3)
    ∧ ((generateImageWithRetry retryOracleNR 3 1000).result = retryOracleNR 0
      ∧ (generateImageWithRetry retryOracleNR 3 1000).attempts = 1) :=
  ⟨(C6_retry_policy retryOracleRRS 1000).2.2.2.2.1
      (by decide) (by decide) (by decide) (by decide) (by decide),
    (C6_retry_policy retryOracleNR 1000).2.2.2.2.2 (by decide) (by decide)⟩

/-! ## Live feed (C8) -/

theorem feedLoop_cons (job : JobState) (rest : List JobState) (c : Nat) :
    feedLoop (job :: rest) c
      = (tickOf job c).1 ::
        (if (tickOf job c).1.terminal then [] else feedLoop rest (tickOf job c).2) := rfl

theorem tickOf_progress (job : JobState) (c : Nat) :
    (tickOf job c).1.progressImages = job.completedImages.drop c := by
  simp only [tickOf]
  split
  · rfl
  · next h =>
    rw [List.drop_eq_nil_of_le (Nat.le_of_not_lt h)]

theorem tickOf_count (job : JobState) (c : Nat) :
    (tickOf job c).2 = max c job.completedImages.length := by
  simp only [tickOf]
  split
  · next h => rw [Nat.max_eq_right (Nat.le_of_lt h)]
  · next h => rw [Nat.max_eq_left (Nat.le_of_not_lt h)]

theorem drop_append_decomp (a t : List α) (c : Nat) :
    (a ++ t).drop c = a.drop c ++ (a ++ t).drop (max c a.length) := by
  by_cases h : c ≤ a.length
  · rw [List.drop_append_of_le_length h, Nat.max_eq_right h, List.drop_left]
  · have h2 : a.length ≤ c := Nat.le_of_lt (Nat.lt_of_not_le h)
    rw [List.drop_eq_nil_of_le h2, Nat.max_eq_left h2, List.nil_append]

theorem chain_rel_head {α : Type} {R : α → α → Prop} (hrefl : ∀ a, R a a)
    (htrans : ∀ a b c, R a b → R b c → R a c) :
    ∀ (l : List α) (x : α), List.Chain' R (x :: l) → ∀ y ∈ x :: l, R x y := by
  intro l
  induction l with
  | nil =>
    intro x _ y hy
    rw [List.mem_singleton] at hy
    exact hy ▸ hrefl x
  | cons z zs ih =>
    intro x h y hy
    have hxz : R x z := (List.chain'_cons.mp h).1
    have hc : List.Chain' R (z :: zs) := (List.chain'_cons.mp h).2
    rcases List.mem_cons.mp hy with rfl | hmem
    · exact hrefl y
    · exact htrans x z y hxz (ih z hc y hmem)

theorem feedLoop_join (snaps : List JobState) :
    ∀ c : Nat,
      List.Chain' (fun a b => ∃ s, a.completedImages ++ s = b.completedImages) snaps →
      snaps = [] ∨ ∃ j ∈ snaps,
        ((feedLoop snaps c).map FeedTick.progressImages).flatten
          = j.completedImages.drop c := by
  induction snaps with
  | nil => intro c _; exact Or.inl rfl
  | cons s rest ih =>
    intro c hchain
    refine Or.inr ?_
    by_cases hterm : ((tickOf s c).1).terminal
    · refine ⟨s, List.mem_cons_self s rest, ?_⟩
      simp [feedLoop, hterm, tickOf_progress]
    · cases rest with
      | nil =>
        refine ⟨s, List.mem_cons_self s [], ?_⟩
        simp [feedLoop, hterm, tickOf_progress]
      | cons r rs =>
        have htail : List.Chain'
            (fun a b => ∃ s, a.completedImages ++ s = b.completedImages) (r :: rs) :=
          (List.chain'_cons.mp hchain).2
        rcases ih (tickOf s c).2 htail with hnil | ⟨j, hj, heq⟩
        · exact absurd hnil (List.cons_ne_nil r rs)
        · refine ⟨j, List.mem_cons_of_mem s hj, ?_⟩
          have hrel : ∃ u, s.completedImages ++ u = j.completedImages :=
            chain_rel_head (fun a => ⟨[], List.append_nil _⟩)
              (fun a b c ⟨u1, h1⟩ ⟨u2, h2⟩ =>
                ⟨u1 ++ u2, by rw [← h2, ← h1, List.append_assoc]⟩)
              (r :: rs) s hchain j (List.mem_cons_of_mem s hj)
          rcases hrel with ⟨u, hu⟩
          rw [feedLoop_cons, if_neg hterm]
          simp only [List.map_cons, List.flatten_cons, heq, tickOf_progress]
          rw [← hu, tickOf_count, ← drop_append_decomp]

/-- C8 counterexample — the claim says an error event for a given
stored error is emitted only if it had not already been surfaced on an
earlier tick, but the feed re-sends `job.errors.slice(-10)` on every
tick with a non-empty error list: over two poll ticks of an unchanged
job with one stored error, both ticks emit that same error. -/
theorem C8_error_reemission_counterexample :
    (feedLoop [sampleJobWithError, sampleJobWithError] 0).map FeedTick.errorsSent
      = [[sampleErr], [sampleErr]] := by
  decide

/-- C8 (amended) — over the poll ticks of one live-feed
subscription: (images) under the append-only assumption on
`completedImages`, the concatenation of all emitted progress-image
batches is one contiguous slice `drop c` of a single snapshot's
`completedImages`, so each completed-image position is emitted in at
most one progress event — images are never re-emitted; (errors) error
events are **not** deduplicated: every tick whose snapshot has a
non-empty error list emits the most recent 10 stored errors again,
regardless of what earlier ticks surfaced. -/
theorem C8_feed_events (snaps : List JobState) (c : Nat)
    (hchain : List.Chain'
      (fun a b => ∃ s, a.completedImages ++ s = b.completedImages) snaps)
    (job : JobState) (hjerr : job.errors ≠ [])
    (hterm : job.status.isTerminal = false) :
    (snaps = [] ∨ ∃ j ∈ snaps,
      ((feedLoop snaps c).map FeedTick.progressImages).flatten
        = j.completedImages.drop c)
    ∧ (feedLoop [job, job] c).map FeedTick.errorsSent
        = [lastN 10 job.errors, lastN 10 job.errors] := by
  refine ⟨feedLoop_join snaps c hchain, ?_⟩
  have hie : job.errors.isEmpty = false := by
    simpa using hjerr
  simp [feedLoop, tickOf, hie, hterm]

/-- Witness for C8: the one-snapshot feed for the sample job with one
error; its single progress batch is the record's images and the
re-emission shape holds on the two-tick run. -/
theorem C8_feed_events_witness :
    (([sampleJobWithError] : List JobState) = [] ∨ ∃ j ∈ [sampleJobWithError],
      ((feedLoop [sampleJobWithError] 0).map FeedTick.progressImages).flatten
        = j.completedImages.drop 0)
    ∧ (feedLoop [sampleJobWithError, sampleJobWithError] 0).map FeedTick.errorsSent
        = [lastN 10 sampleJobWithError.errors, lastN 10 sampleJobWithError.errors] :=
  C8_feed_events [sampleJobWithError] 0 (List.chain'_singleton _)
    sampleJobWithError (by decide) (by decide)

/-! ## Chunking (C10) -/

theorem chunkLoop_terminates (array : List α) (size : Nat) (hsize : 1 ≤ size) :
    ∀ (fuel i : Nat), array.length - i < fuel →
      ∃ cs, chunkLoop array size fuel i = some cs
        ∧ cs.flatten = array.drop i
        ∧ (∀ c ∈ cs, c.length ≤ size)
        ∧ (∀ c ∈ cs, c ≠ [])
        ∧ (∀ k (hk : k + 1 < cs.length),
            (cs.get ⟨k, Nat.lt_of_succ_lt hk⟩).length = size) := by
  intro fuel
  induction fuel with
  | zero => intro i hi; omega
  | succ fuel ih =>
    intro i hi
    by_cases hil : i < array.length
    · have hiplus : array.length - (i + size) < fuel := by omega
      rcases ih (i + size) hiplus with ⟨cs, hcs, hflat, hle, hnil, hlast⟩
      refine ⟨(array.drop i).take size :: cs, ?_, ?_, ?_, ?_, ?_⟩
      · simp [chunkLoop, hil, hcs]
      · simp only [List.flatten_cons, hflat]
        rw [show array.drop (i + size) = (array.drop i).drop size from
          (List.drop_drop size i array).symm, List.take_append_drop]
      · intro c hc
        rcases List.mem_cons.mp hc with rfl | hmem
        · simp [Nat.min_le_left size]
        · exact hle c hmem
      · intro c hc
        rcases List.mem_cons.mp hc with rfl | hmem
        · have : ((array.drop i).take size).length = min size (array.length - i) := by
            simp [List.length_take]
          intro hc2
          rw [hc2] at this
          simp at this
          omega
        · exact hnil c hmem
      · intro k hk
        cases k with
        | zero =>
          have hcs_ne : cs ≠ [] := by
            intro hc
            subst hc
            simp at hk
          have hflat_ne : cs.flatten ≠ [] := by
            cases cs with
            | nil => exact absurd rfl hcs_ne
            | cons c0 cs' =>
              have hc0 : c0 ≠ [] := hnil c0 (List.mem_cons_self c0 cs')
              simp only [List.flatten_cons]
              intro hc
              exact hc0 (List.append_eq_nil.mp hc).1
          have hdrop_ne : array.drop (i + size) ≠ [] := hflat ▸ hflat_ne
          have hlt : i + size < array.length := by
            by_contra hge
            exact hdrop_ne (List.drop_eq_nil_of_le (Nat.le_of_not_lt hge))
          show ((array.drop i).take size).length = size
          simp only [List.length_take, List.length_drop]
          omega
        | succ k2 =>
          simp only [List.length_cons] at hk
          exact hlast k2 (Nat.lt_of_succ_lt_succ hk)
    · refine ⟨[], by simp [chunkLoop, hil], ?_, by simp, by simp, by simp⟩
      simp [List.drop_eq_nil_of_le (Nat.le_of_not_lt hil)]

/-- C10 — for every array and chunk size ≥ 1, `chunk(array, size)`
terminates and returns consecutive slices, each of length ≤ size, all
but possibly the last of length exactly size, whose concatenation is
the original array in order.  `size >= 1` is necessary: with size 0 the
loop `i += size` never advances past a non-empty array, so no amount of
fuel makes it terminate.  `processBatches` receives
`effectiveBatchSize = min(requested, configuredMaximum)`, and the
request schema does not forbid a non-positive `batchSize`, so a
requested 0 passes through `min` unchanged. -/
theorem C10_chunk_correct :
    (∀ (α : Type) (array : List α) (size : Nat), 1 ≤ size →
      ∃ cs, chunkJS array size = some cs
        ∧ cs.flatten = array
        ∧ (∀ c ∈ cs, c.length ≤ size)
        ∧ (∀ k (hk : k + 1 < cs.length),
            (cs.get ⟨k, Nat.lt_of_succ_lt hk⟩).length = size))
    ∧ (∀ fuel, chunkLoop ([0] : List Nat) 0 fuel 0 = none)
    ∧ effectiveBatchSize 0 20 = 0 := by
  refine ⟨?_, ?_, rfl⟩
  · intro α array size hsize
    rcases chunkLoop_terminates array size hsize (array.length + 1) 0 (by omega)
      with ⟨cs, hcs, hflat, hle, _, hlast⟩
    exact ⟨cs, hcs, by simpa using hflat, hle, hlast⟩
  · intro fuel
    induction fuel with
    | zero => rfl
    | succ fuel ih => simp [chunkLoop, ih]

/-- Witness for C10: chunking a 5-element array with size 2 gives
`[[1,2],[3,4],[5]]`-shaped output satisfying all the slice
properties. -/
theorem C10_chunk_correct_witness :
    ∃ cs, chunkJS [1, 2, 3, 4, 5] 2 = some cs
      ∧ cs.flatten = [1, 2, 3, 4, 5]
      ∧ (∀ c ∈ cs, c.length ≤ 2)
      ∧ (∀ k (hk : k + 1 < cs.length),
          (cs.get ⟨k, Nat.lt_of_succ_lt hk⟩).length = 2) :=
  C10_chunk_correct.1 Nat [1, 2, 3, 4, 5] 2 (by decide)

end Banana
